import Mathlib

/-!
# streamFilesToAWS: the streaming CSV merge of `main.go`

A shallow embedding of `writeMergedCSVToPipe`, `retrieveFilePart` and
`streamMergeAndUpload`, together with the part of Go's `encoding/csv` that the
program calls (`Reader.ReadAll` and `Writer.Write`, both with their default
settings).

Conventions.
* A Go `error` built by `fmt.Errorf` is kept as a constructor of `GoError`, one
  constructor per format string of `main.go`.
* The partition source is an argument `retrieve`; `retrieveFilePart` is the
  source that `main.go` ships.
* What the producer goroutine does is recorded as a list of `Event`s in call
  order.  `producer` is the call sequence of a run in which every call returns;
  `producerRun` is the run against a pipe whose reader takes a bounded number of
  bytes and never closes its end: it stops at the first call whose pipe write
  cannot complete.  The random delay of `retrieveFilePart` is left out.
-/

namespace StreamFiles

/-! ## Data model -/

deriving instance DecidableEq for Except

/-- A CSV record, Go's `[]string`. -/
abbrev Row := List String

/-- The sentinel errors of `encoding/csv` that `ReadAll` can return with the default
reader settings.  The line and column carried by `csv.ParseError` are not kept. -/
inductive CsvError where
  | ErrBareQuote
  | ErrQuote
  | ErrFieldCount
  deriving DecidableEq, Repr

/-- Error values of the program, one constructor per `fmt.Errorf` format string. -/
inductive GoError where
  /-- Line 129: `file part %s not found`. -/
  | filePartNotFound (part : String)
  /-- An error returned by `reader.ReadAll()`. -/
  | csv (err : CsvError)
  /-- Line 93: `failed to retrieve file part %s: %v`. -/
  | failedToRetrieve (part : String) (err : GoError)
  /-- Line 99: `failed to parse CSV data from part %s: %v`. -/
  | failedToParse (part : String) (err : GoError)
  /-- Line 43: `failed to create AWS session: %v`. -/
  | failedToCreateSession (err : GoError)
  /-- Line 73: `failed to upload to S3: %v`. -/
  | failedToUpload (err : GoError)
  /-- An error raised by a collaborator outside the repository (the AWS SDK, a
  partition source other than the mock). -/
  | other (msg : String)
  deriving DecidableEq, Repr

/-! ## `encoding/csv`: the reader -/

/-- What `Reader.readLine` does to line ends, on the whole input: every `\r\n` becomes
`\n`, and a `\r` that is the last character of the input is dropped. -/
def normalizeNL : List Char → List Char
  | [] => []
  | ['\r'] => []
  | '\r' :: '\n' :: rest => '\n' :: normalizeNL rest
  | c :: rest => c :: normalizeNL rest

/-- Where the reader stands inside the input. -/
inductive Mode where
  /-- At the start of a line, before the first field of a record. -/
  | recordStart
  /-- Right after a comma. -/
  | fieldStart
  /-- Inside a non-quoted field. -/
  | bare
  /-- Inside a quoted field. -/
  | quoted
  deriving DecidableEq, Repr

/-- End of a record: `FieldsPerRecord` is 0 at first, so the first record sets the
number of fields and every later record must have as many. -/
def endRecord (records : List Row) (record : Row) : Except CsvError (List Row) :=
  match records with
  | [] => .ok [record]
  | first :: _ =>
    if record.length = first.length then .ok (records ++ [record])
    else .error .ErrFieldCount

/-- The loop of `Reader.readRecord` and `Reader.ReadAll`, over the normalised input.
`buf` is the field being read, `fields` the fields of the current record and
`records` the records read so far. -/
def scan : List Char → Mode → List Char → Row → List Row → Except CsvError (List Row)
  -- end of input
  | [], .recordStart, _, _, records => .ok records
  | [], .fieldStart, _, fields, records => endRecord records (fields ++ [""])
  | [], .bare, buf, fields, records => endRecord records (fields ++ [String.mk buf])
  | [], .quoted, _, _, _ => .error .ErrQuote
  -- inside a quoted field
  | ['"'], .quoted, buf, fields, records => endRecord records (fields ++ [String.mk buf])
  | '"' :: '"' :: rest, .quoted, buf, fields, records =>
    scan rest .quoted (buf ++ ['"']) fields records
  | '"' :: ',' :: rest, .quoted, buf, fields, records =>
    scan rest .fieldStart [] (fields ++ [String.mk buf]) records
  | '"' :: '\n' :: rest, .quoted, buf, fields, records =>
    match endRecord records (fields ++ [String.mk buf]) with
    | .error e => .error e
    | .ok records1 => scan rest .recordStart [] [] records1
  | '"' :: _ :: _, .quoted, _, _, _ => .error .ErrQuote
  | c :: rest, .quoted, buf, fields, records => scan rest .quoted (buf ++ [c]) fields records
  -- inside a non-quoted field
  | '"' :: _, .bare, _, _, _ => .error .ErrBareQuote
  | ',' :: rest, .bare, buf, fields, records =>
    scan rest .fieldStart [] (fields ++ [String.mk buf]) records
  | '\n' :: rest, .bare, buf, fields, records =>
    match endRecord records (fields ++ [String.mk buf]) with
    | .error e => .error e
    | .ok records1 => scan rest .recordStart [] [] records1
  | c :: rest, .bare, buf, fields, records => scan rest .bare (buf ++ [c]) fields records
  -- first character of a field that follows a comma
  | '"' :: rest, .fieldStart, _, fields, records => scan rest .quoted [] fields records
  | ',' :: rest, .fieldStart, _, fields, records =>
    scan rest .fieldStart [] (fields ++ [""]) records
  | '\n' :: rest, .fieldStart, _, fields, records =>
    match endRecord records (fields ++ [""]) with
    | .error e => .error e
    | .ok records1 => scan rest .recordStart [] [] records1
  | c :: rest, .fieldStart, _, fields, records => scan rest .bare [c] fields records
  -- first character of a line: empty lines are skipped
  | '\n' :: rest, .recordStart, _, _, records => scan rest .recordStart [] [] records
  | '"' :: rest, .recordStart, _, _, records => scan rest .quoted [] [] records
  | ',' :: rest, .recordStart, _, _, records => scan rest .fieldStart [] [""] records
  | c :: rest, .recordStart, _, _, records => scan rest .bare [c] [] records

/-- `csv.NewReader(strings.NewReader(data)).ReadAll()` (lines 96-97). -/
def csvReadAll (data : String) : Except CsvError (List Row) :=
  scan (normalizeNL data.data) .recordStart [] [] []

/-! ## `encoding/csv`: the writer -/

/-- Go's `unicode.IsSpace`. -/
def isSpace (c : Char) : Bool :=
  c == '\t' || c == '\n' || c == Char.ofNat 0x0B || c == Char.ofNat 0x0C || c == '\r' ||
  c == ' ' || c == Char.ofNat 0x85 || c == Char.ofNat 0xA0 || c == Char.ofNat 0x1680 ||
  (0x2000 ≤ c.toNat && c.toNat ≤ 0x200A) || c == Char.ofNat 0x2028 ||
  c == Char.ofNat 0x2029 || c == Char.ofNat 0x202F || c == Char.ofNat 0x205F ||
  c == Char.ofNat 0x3000

/-- `Writer.fieldNeedsQuotes` with the default comma. -/
def fieldNeedsQuotes (field : String) : Bool :=
  if field = "" then false
  else if field = "\\." then true
  else if field.data.any (fun c => c == '\n' || c == '\r' || c == '"' || c == ',') then true
  else match field.data with
    | [] => false
    | c :: _ => isSpace c

/-- One field as `Writer.Write` emits it: verbatim, or between quotes with every quote
doubled (`UseCRLF` is false, so `\r` and `\n` are copied). -/
def encodeField (field : String) : List Char :=
  if fieldNeedsQuotes field then
    ['"'] ++ field.data.flatMap (fun c => if c = '"' then ['"', '"'] else [c]) ++ ['"']
  else field.data

/-- The bytes of one `csvWriter.Write(record)`: the fields separated by commas, then a
newline. -/
def csvWrite (record : Row) : List Char :=
  List.intercalate [','] (record.map encodeField) ++ ['\n']

/-! ## The partition source -/

/-- A partition source: the raw text of a partition, or an error. -/
abbrev Source := String → Except GoError String

/-- The `mockData` map of `retrieveFilePart` (lines 121-125). -/
def mockData : List (String × String) :=
  [("part1", "id,name,age\n1,John,30\n2,Jane,25"),
   ("part2", "id,name,age\n3,Mike,35\n4,Sara,28"),
   ("part3", "id,name,age\n5,Paul,40\n6,Linda,32")]

/-- `retrieveFilePart` (lines 116-133), without its random delay. -/
def retrieveFilePart : Source := fun part =>
  match mockData.lookup part with
  | some data => .ok data
  | none => .error (.filePartNotFound part)

/-! ## The merge writer -/

/-- A call made by the producer goroutine. -/
inductive Event where
  /-- The call `retrieveFilePart(part)`. -/
  | retrieve (part : String)
  /-- The call `csvWriter.Write(row)`. -/
  | write (row : Row)
  /-- The deferred `csvWriter.Flush()`. -/
  | flush
  /-- The call `pw.Close()`. -/
  | close
  /-- The call `pw.CloseWithError(err)`. -/
  | closeWithError (err : GoError)
  deriving DecidableEq, Repr

/-- The variables of `writeMergedCSVToPipe` that change in its loop. -/
structure MergeState where
  /-- The calls made so far. -/
  events : List Event
  /-- The flag `headerWritten`. -/
  headerWritten : Bool
  deriving DecidableEq, Repr

/-- Lines 91-100: retrieve the part and parse it; the two ways to fail. -/
def loadPart (retrieve : Source) (part : String) : Except GoError (List Row) :=
  match retrieve part with
  | .error err => .error (.failedToRetrieve part err)
  | .ok data =>
    match csvReadAll data with
    | .error err => .error (.failedToParse part (.csv err))
    | .ok rows => .ok rows

/-- Lines 102-110: `for i, row := range rows`, from index `i` on. -/
def writeRows : Nat → List Row → MergeState → MergeState
  | _, [], st => st
  | i, row :: rest, st =>
    if i == 0 && !st.headerWritten then
      writeRows (i + 1) rest { events := st.events ++ [.write row], headerWritten := true }
    else if i > 0 then
      writeRows (i + 1) rest { st with events := st.events ++ [.write row] }
    else
      writeRows (i + 1) rest st

/-- Lines 89-111: `for _, part := range fileParts`; the state at the `return` and the
error returned. -/
def mergeParts (retrieve : Source) : List String → MergeState → MergeState × Option GoError
  | [], st => (st, none)
  | part :: rest, st =>
    let st1 : MergeState := { st with events := st.events ++ [.retrieve part] }
    match loadPart retrieve part with
    | .error err => (st1, some err)
    | .ok rows => mergeParts retrieve rest (writeRows 0 rows st1)

/-- `writeMergedCSVToPipe` (lines 83-113): the calls it makes, the deferred flush last,
and the error it returns. -/
def writeMergedCSVToPipe (retrieve : Source) (fileParts : List String) :
    List Event × Option GoError :=
  let r := mergeParts retrieve fileParts { events := [], headerWritten := false }
  (r.1.events ++ [.flush], r.2)

/-- The producer goroutine (lines 56-64) when every one of its calls returns:
`writeMergedCSVToPipe`, then `CloseWithError` or `Close`. -/
def producer (retrieve : Source) (fileParts : List String) : List Event :=
  let r := writeMergedCSVToPipe retrieve fileParts
  match r.2 with
  | some err => r.1 ++ [.closeWithError err]
  | none => r.1 ++ [.close]

/-- The rows passed to `csvWriter.Write`, in call order. -/
def rowsWritten (events : List Event) : List Row :=
  events.filterMap (fun e => match e with
    | .write row => some row
    | _ => none)

/-- The parts asked of the partition source, in call order. -/
def partsRetrieved (events : List Event) : List String :=
  events.filterMap (fun e => match e with
    | .retrieve part => some part
    | _ => none)

/-- The bytes the CSV writer has handed to the pipe once flushed. -/
def streamBytes (events : List Event) : String :=
  String.mk ((rowsWritten events).flatMap csvWrite)

/-- Whether an event is one of the two terminal signals of the pipe writer. -/
def Event.isTerminal : Event → Bool
  | .close => true
  | .closeWithError _ => true
  | _ => false

/-! ## The pipe: writes that block -/

/-- The size of the `bufio.Writer` that `csv.NewWriter` puts in front of the pipe writer
(`defaultBufSize`). -/
def bufSize : Nat := 4096

/-- The number of bytes a call hands to the CSV writer. -/
def Event.bytes : Event → Nat
  | .write row => (String.mk (csvWrite row)).utf8ByteSize
  | _ => 0

/-- The number of bytes the CSV writer is given in the whole call sequence. -/
def streamSize (events : List Event) : Nat := (events.map Event.bytes).sum

/-- The number of bytes handed to the pipe once a call is over, when `total` bytes were
given to the CSV writer and `sent` of them handed to the pipe before the call.  A row
write passes on every buffer that filled up before its last byte; the flush passes on
all that is left; no other call writes to the pipe. -/
def sentAfter (e : Event) (total sent : Nat) : Nat :=
  match e with
  | .write _ => max sent (bufSize * ((total + e.bytes - 1) / bufSize))
  | .flush => max sent total
  | _ => sent

/-- Whether a call never returns: it writes to the pipe beyond what the reader takes.
`limit = none` is a reader that reads until the stream ends, `limit = some n` a reader
that stops after `n` bytes without closing its end (the read end is never closed in
`main.go`). -/
def blocks (limit : Option Nat) (sent sentNew : Nat) : Bool :=
  match limit with
  | none => false
  | some n => decide (sent < sentNew) && decide (n < sentNew)

/-- The calls of a sequence that are made against such a reader: the sequence up to and
including the first call that blocks. -/
def runPipe (limit : Option Nat) : List Event → Nat → Nat → List Event
  | [], _, _ => []
  | e :: rest, total, sent =>
    if blocks limit sent (sentAfter e total sent) then [e]
    else e :: runPipe limit rest (total + e.bytes) (sentAfter e total sent)

/-- A run of the producer goroutine (lines 56-64) against a reader that takes `limit`
bytes. -/
def producerRun (limit : Option Nat) (retrieve : Source) (fileParts : List String) :
    List Event :=
  runPipe limit (producer retrieve fileParts) 0 0

/-! ## The coordinator -/

/-- What the pipe reader delivers: the bytes, then end of data (`none`) or the error
given to `CloseWithError`. -/
structure PipeStream where
  /-- The bytes read. -/
  data : String
  /-- The error that ends the stream, if any. -/
  err : Option GoError
  deriving DecidableEq, Repr

/-- The stream a producer run leaves in the pipe. -/
def pipeStream (events : List Event) : PipeStream :=
  { data := streamBytes events
    err := events.findSome? (fun e => match e with
      | .closeWithError err => some err
      | _ => none) }

/-- The collaborators of `streamMergeAndUpload` in the AWS SDK. -/
structure Env where
  /-- The result of `session.NewSession`. -/
  newSession : Except GoError Unit
  /-- The result of `uploader.Upload` on a body that delivers the given stream. -/
  upload : PipeStream → Except GoError Unit

/-- A call made by `streamMergeAndUpload` itself. -/
inductive Step where
  | newSession
  | newUploader
  | pipe
  | wgAdd
  | spawn
  | upload
  | wgWait
  deriving DecidableEq, Repr

/-- `streamMergeAndUpload` (lines 37-80): the calls the coordinator makes before it
returns, and the error it returns. -/
def streamMergeAndUpload (env : Env) (retrieve : Source) (fileParts : List String) :
    List Step × Option GoError :=
  match env.newSession with
  | .error err => ([.newSession], some (.failedToCreateSession err))
  | .ok _ =>
    match env.upload (pipeStream (producer retrieve fileParts)) with
    | .error err =>
      ([.newSession, .newUploader, .pipe, .wgAdd, .spawn, .upload], some (.failedToUpload err))
    | .ok _ =>
      ([.newSession, .newUploader, .pipe, .wgAdd, .spawn, .upload, .wgWait], none)

/-! ## The rows a run writes, as a function of the parsed partitions -/

/-- The rows that the loop writes for partitions that parse to `rowss`, entered with
`headerWritten = hw`: all rows of a partition while the flag is down, its rows from
index 1 on once it is up. -/
def mergedRows : Bool → List (List Row) → List Row
  | _, [] => []
  | hw, rows :: rest =>
    (if hw then rows.drop 1 else rows) ++ mergedRows (hw || !rows.isEmpty) rest

/-- Every part of the list is retrieved and parsed without error, with these rows. -/
def AllValid (retrieve : Source) (parts : List String) (rowss : List (List Row)) : Prop :=
  List.Forall₂ (fun part rows => loadPart retrieve part = .ok rows) parts rowss

/-- The rows a run of `writeMergedCSVToPipe` writes. -/
def output (retrieve : Source) (fileParts : List String) : List Row :=
  rowsWritten (writeMergedCSVToPipe retrieve fileParts).1

/-- The number of data rows (rows at index 1 and above) of a parsed partition. -/
def dataRowCount (rows : List Row) : Nat := rows.length - 1

/-! ## Partition sources used as concrete inputs -/

/-- A source with three partitions: `A` is empty text, `B` is `id,name\n1,Ann` and `C`
is `key,label\n2,Bo`. -/
def sourceEmptyThenAnn : Source := fun part =>
  if part = "A" then .ok ""
  else if part = "B" then .ok "id,name\n1,Ann"
  else if part = "C" then .ok "key,label\n2,Bo"
  else .error (.filePartNotFound part)

/-- The source of the spec's scenario: `P1` is `id,name\n1,Ann`, `P2` is `id,name\n2,Bo`. -/
def sourceAnnBo : Source := fun part =>
  if part = "P1" then .ok "id,name\n1,Ann"
  else if part = "P2" then .ok "id,name\n2,Bo"
  else .error (.filePartNotFound part)

/-- A source whose second partition has another header than its first. -/
def sourceOtherHeader : Source := fun part =>
  if part = "P1" then .ok "id,name\n1,Ann"
  else if part = "P2" then .ok "key,label\n2,Bo"
  else .error (.filePartNotFound part)

/-- An SDK whose `Upload` fails with the very error that ends the stream, and succeeds
on a stream that ends cleanly. -/
def envUploadSurfacesAbort : Env :=
  { newSession := .ok ()
    upload := fun stream =>
      match stream.err with
      | some err => .error err
      | none => .ok () }

/-- An SDK whose `Upload` is rejected by the sink. -/
def envUploadRejected : Env :=
  { newSession := .ok ()
    upload := fun _ => .error (.other "AccessDenied") }

/-! ## Lemmas on the loops -/

theorem writeRows_pos (rows : List Row) (i : Nat) (st : MergeState) :
    writeRows (i + 1) rows st =
      { events := st.events ++ rows.map Event.write, headerWritten := st.headerWritten } := by
  induction rows generalizing i st with
  | nil => simp [writeRows]
  | cons row rest ih => simp [writeRows, ih]

theorem writeRows_zero (rows : List Row) (st : MergeState) :
    writeRows 0 rows st =
      { events := st.events ++ (if st.headerWritten then rows.drop 1 else rows).map Event.write,
        headerWritten := st.headerWritten || !rows.isEmpty } := by
  cases rows with
  | nil => cases st; simp [writeRows]
  | cons row rest =>
    cases st with
    | mk ev hw => cases hw <;> simp [writeRows, writeRows_pos]

theorem rowsWritten_append (a b : List Event) :
    rowsWritten (a ++ b) = rowsWritten a ++ rowsWritten b := by
  simp [rowsWritten, List.filterMap_append]

theorem rowsWritten_map_write (rows : List Row) :
    rowsWritten (rows.map Event.write) = rows := by
  induction rows with
  | nil => rfl
  | cons row rest ih =>
    simp only [rowsWritten, List.map_cons, List.filterMap_cons] at ih ⊢
    rw [ih]

theorem partsRetrieved_append (a b : List Event) :
    partsRetrieved (a ++ b) = partsRetrieved a ++ partsRetrieved b := by
  simp [partsRetrieved, List.filterMap_append]

theorem partsRetrieved_map_write (rows : List Row) :
    partsRetrieved (rows.map Event.write) = [] := by
  induction rows with
  | nil => rfl
  | cons row rest ih =>
    simp only [partsRetrieved, List.map_cons, List.filterMap_cons] at ih ⊢
    exact ih

/-- The loop only appends to the events of the state it starts from. -/
theorem mergeParts_events (retrieve : Source) (parts : List String) (st : MergeState) :
    (mergeParts retrieve parts st).1.events =
        st.events ++
          (mergeParts retrieve parts { events := [], headerWritten := st.headerWritten }).1.events ∧
      (mergeParts retrieve parts st).1.headerWritten =
        (mergeParts retrieve parts { events := [], headerWritten := st.headerWritten }).1.headerWritten ∧
      (mergeParts retrieve parts st).2 =
        (mergeParts retrieve parts { events := [], headerWritten := st.headerWritten }).2 := by
  induction parts generalizing st with
  | nil => simp [mergeParts]
  | cons part rest ih =>
    simp only [mergeParts]
    cases h : loadPart retrieve part with
    | error err => simp
    | ok rows =>
      simp only [writeRows_zero, List.nil_append]
      have h1 := ih ⟨st.events ++ [Event.retrieve part] ++
          (if st.headerWritten then rows.drop 1 else rows).map Event.write,
          st.headerWritten || !rows.isEmpty⟩
      have h2 := ih ⟨[Event.retrieve part] ++
          (if st.headerWritten then rows.drop 1 else rows).map Event.write,
          st.headerWritten || !rows.isEmpty⟩
      simp only [List.append_assoc] at h1 h2 ⊢
      refine ⟨?_, ?_, ?_⟩
      · rw [h1.1, h2.1]
      · rw [h1.2.1, h2.2.1]
      · rw [h1.2.2, h2.2.2]

/-- The loop on valid partitions: no error, and the rows written are `mergedRows`. -/
theorem mergeParts_valid (retrieve : Source) (parts : List String) (rowss : List (List Row))
    (hv : AllValid retrieve parts rowss) (st : MergeState) :
    (mergeParts retrieve parts st).2 = none ∧
      rowsWritten (mergeParts retrieve parts st).1.events =
        rowsWritten st.events ++ mergedRows st.headerWritten rowss ∧
      partsRetrieved (mergeParts retrieve parts st).1.events =
        partsRetrieved st.events ++ parts ∧
      (mergeParts retrieve parts st).1.headerWritten =
        (st.headerWritten || rowss.any (fun rows => !rows.isEmpty)) := by
  induction hv generalizing st with
  | nil => simp [mergeParts, mergedRows]
  | @cons part rows parts rowss h _ ih =>
    simp only [mergeParts, h, writeRows_zero]
    obtain ⟨e1, e2, e3, e4⟩ := ih ⟨st.events ++ [Event.retrieve part] ++
        (if st.headerWritten then rows.drop 1 else rows).map Event.write,
        st.headerWritten || !rows.isEmpty⟩
    refine ⟨e1, ?_, ?_, ?_⟩
    · rw [e2]
      simp only [rowsWritten_append, rowsWritten_map_write, mergedRows, List.append_assoc]
      simp [rowsWritten]
    · rw [e3]
      simp only [partsRetrieved_append, partsRetrieved_map_write, List.append_assoc]
      simp [partsRetrieved]
    · rw [e4]; simp [Bool.or_assoc]

/-- Once the flag is up, the loop writes the rows from index 1 on of every partition. -/
theorem mergedRows_true (rowss : List (List Row)) :
    mergedRows true rowss = rowss.flatMap (fun rows => rows.drop 1) := by
  induction rowss with
  | nil => rfl
  | cons rows rest ih => simp [mergedRows, ih]

/-- While no partition has a row, nothing is written and the flag stays down. -/
theorem mergedRows_append (hw : Bool) (xs ys : List (List Row)) :
    mergedRows hw (xs ++ ys) =
      mergedRows hw xs ++ mergedRows (hw || xs.any (fun rows => !rows.isEmpty)) ys := by
  induction xs generalizing hw with
  | nil => simp [mergedRows]
  | cons rows rest ih => simp [mergedRows, ih, Bool.or_assoc]

theorem length_flatMap_drop (rowss : List (List Row)) :
    (rowss.flatMap (fun rows => rows.drop 1)).length = (rowss.map dataRowCount).sum := by
  induction rowss with
  | nil => rfl
  | cons rows rest ih =>
    simp only [List.flatMap_cons, List.length_append, List.map_cons, List.sum_cons, ih,
      List.length_drop]
    rfl

/-- A run on valid partitions: no error, the rows of `mergedRows`, every part retrieved. -/
theorem writeMerged_valid (retrieve : Source) (parts : List String) (rowss : List (List Row))
    (hv : AllValid retrieve parts rowss) :
    (writeMergedCSVToPipe retrieve parts).2 = none ∧
      output retrieve parts = mergedRows false rowss ∧
      partsRetrieved (writeMergedCSVToPipe retrieve parts).1 = parts := by
  obtain ⟨e1, e2, e3, _⟩ := mergeParts_valid retrieve parts rowss hv ⟨[], false⟩
  refine ⟨e1, ?_, ?_⟩
  · simp only [output, writeMergedCSVToPipe, rowsWritten_append, e2]
    simp [rowsWritten]
  · simp only [writeMergedCSVToPipe, partsRetrieved_append, e3]
    simp [partsRetrieved]

theorem loadPart_of_retrieve (retrieve : Source) (part data : String) (rows : List Row)
    (h : retrieve part = .ok data) (hp : csvReadAll data = .ok rows) :
    loadPart retrieve part = .ok rows := by
  simp [loadPart, h, hp]

theorem readAll_ann : csvReadAll "id,name\n1,Ann" = .ok [["id", "name"], ["1", "Ann"]] := by
  decide

theorem readAll_bo : csvReadAll "id,name\n2,Bo" = .ok [["id", "name"], ["2", "Bo"]] := by
  decide

theorem valid_annBo :
    AllValid sourceAnnBo ["P1", "P2"]
      [[["id", "name"], ["1", "Ann"]], [["id", "name"], ["2", "Bo"]]] :=
  List.Forall₂.cons (by decide) (List.Forall₂.cons (by decide) List.Forall₂.nil)

theorem valid_otherHeader :
    AllValid sourceOtherHeader ["P1", "P2"]
      [[["id", "name"], ["1", "Ann"]], [["key", "label"], ["2", "Bo"]]] :=
  List.Forall₂.cons (by decide) (List.Forall₂.cons (by decide) List.Forall₂.nil)

theorem AllValid.append {retrieve : Source} {xs ys : List String} {rx ry : List (List Row)}
    (hx : AllValid retrieve xs rx) (hy : AllValid retrieve ys ry) :
    AllValid retrieve (xs ++ ys) (rx ++ ry) := by
  induction hx with
  | nil => exact hy
  | cons h _ ih => exact List.Forall₂.cons h ih

/-- Valid partitions whose first one has a row: its row 0, then the data rows of all. -/
theorem output_cons_valid (retrieve : Source) (part : String) (parts : List String)
    (header : Row) (rest : List Row) (rowss : List (List Row))
    (hv : AllValid retrieve (part :: parts) ((header :: rest) :: rowss)) :
    output retrieve (part :: parts) =
      header :: ((header :: rest) :: rowss).flatMap (fun rows => rows.drop 1) := by
  rw [(writeMerged_valid retrieve _ _ hv).2.1]
  simp [mergedRows, mergedRows_true]

/-- Partitions with no row write nothing and leave the flag down. -/
theorem mergedRows_all_empty (zs : List (List Row)) (hz : ∀ z ∈ zs, z = []) :
    mergedRows false zs = [] ∧ zs.any (fun rows => !rows.isEmpty) = false := by
  induction zs with
  | nil => simp [mergedRows]
  | cons z rest ih =>
    have hz0 : z = [] := hz z (List.mem_cons_self _ _)
    have ih1 := ih (fun y hy => hz y (List.mem_cons_of_mem _ hy))
    subst hz0
    simp [mergedRows, ih1.1, ih1.2]

/-! ## Lemmas on failing runs and on the producer -/

/-- An error of `loadPart` is a retrieval error or a parse error, and names the part. -/
theorem loadPart_error (retrieve : Source) (part : String) (err : GoError)
    (h : loadPart retrieve part = .error err) :
    (∃ cause, retrieve part = .error cause ∧ err = .failedToRetrieve part cause) ∨
      (∃ data cause, retrieve part = .ok data ∧ csvReadAll data = .error cause ∧
        err = .failedToParse part (.csv cause)) := by
  unfold loadPart at h
  split at h
  · rename_i cause hr
    simp only [Except.error.injEq] at h
    exact Or.inl ⟨cause, hr, h.symm⟩
  · rename_i data hr
    split at h
    · rename_i cause hp
      simp only [Except.error.injEq] at h
      exact Or.inr ⟨data, cause, hr, hp, h.symm⟩
    · cases h

/-- In a list with a failing part there is a first one. -/
theorem exists_first_failing (retrieve : Source) (parts : List String)
    (h : ∃ q ∈ parts, ∃ e, loadPart retrieve q = .error e) :
    ∃ pre part post err, parts = pre ++ part :: post ∧
      (∀ q ∈ pre, ∃ rows, loadPart retrieve q = .ok rows) ∧
      loadPart retrieve part = .error err := by
  induction parts with
  | nil => obtain ⟨q, hq, _⟩ := h; cases hq
  | cons p ps ih =>
    cases hp : loadPart retrieve p with
    | error err => exact ⟨[], p, ps, err, rfl, by simp, hp⟩
    | ok rows =>
      obtain ⟨q, hq, e, he⟩ := h
      have hq2 : q ∈ ps := by
        rcases List.mem_cons.1 hq with rfl | hq1
        · rw [hp] at he; cases he
        · exact hq1
      obtain ⟨pre, part, post, err, e1, e2, e3⟩ := ih ⟨q, hq2, e, he⟩
      refine ⟨p :: pre, part, post, err, by rw [e1]; rfl, ?_, e3⟩
      intro x hx
      rcases List.mem_cons.1 hx with rfl | hx1
      · exact ⟨rows, hp⟩
      · exact e2 x hx1

/-- The loop stops at a failing part: the parts after it play no role, no row is written
for it, and the parts retrieved are among those up to it. -/
theorem mergeParts_fail (retrieve : Source) (pre : List String) (part : String)
    (post : List String) (err : GoError) (h : loadPart retrieve part = .error err)
    (st : MergeState) :
    mergeParts retrieve (pre ++ part :: post) st = mergeParts retrieve (pre ++ [part]) st ∧
      rowsWritten (mergeParts retrieve (pre ++ part :: post) st).1.events =
        rowsWritten (mergeParts retrieve pre st).1.events ∧
      (mergeParts retrieve (pre ++ part :: post) st).2 ≠ none ∧
      ∃ t, partsRetrieved (mergeParts retrieve (pre ++ part :: post) st).1.events ++ t =
        partsRetrieved st.events ++ (pre ++ [part]) := by
  induction pre generalizing st with
  | nil =>
    simp only [List.nil_append, mergeParts, h]
    refine ⟨trivial, ?_, by simp, [], ?_⟩
    · rw [rowsWritten_append]; simp [rowsWritten]
    · rw [partsRetrieved_append]; simp [partsRetrieved]
  | cons p ps ih =>
    cases hp : loadPart retrieve p with
    | error e =>
      simp only [List.cons_append, mergeParts, hp]
      refine ⟨trivial, trivial, by simp, ps ++ [part], ?_⟩
      rw [partsRetrieved_append]; simp [partsRetrieved]
    | ok rows =>
      simp only [List.cons_append, mergeParts, hp]
      obtain ⟨e1, e2, e3, t, e4⟩ := ih (writeRows 0 rows ⟨st.events ++ [Event.retrieve p],
        st.headerWritten⟩)
      refine ⟨e1, e2, e3, t, Eq.trans e4 ?_⟩
      rw [writeRows_zero]
      simp only [partsRetrieved_append, partsRetrieved_map_write]
      simp [partsRetrieved]

/-- The loop returns the error of the first failing part. -/
theorem mergeParts_first_error (retrieve : Source) (pre : List String) (part : String)
    (post : List String) (err : GoError)
    (hpre : ∀ q ∈ pre, ∃ rows, loadPart retrieve q = .ok rows)
    (h : loadPart retrieve part = .error err) (st : MergeState) :
    (mergeParts retrieve (pre ++ part :: post) st).2 = some err := by
  induction pre generalizing st with
  | nil => simp [mergeParts, h]
  | cons p ps ih =>
    obtain ⟨rows, hp⟩ := hpre p (List.mem_cons_self _ _)
    simp only [List.cons_append, mergeParts, hp]
    exact ih (fun q hq => hpre q (List.mem_cons_of_mem _ hq)) _

/-- An error returned by the loop is the `loadPart` error of one of the parts. -/
theorem mergeParts_error_origin (retrieve : Source) (parts : List String) (st : MergeState)
    (err : GoError) (h : (mergeParts retrieve parts st).2 = some err) :
    ∃ part ∈ parts, loadPart retrieve part = .error err := by
  induction parts generalizing st with
  | nil => simp [mergeParts] at h
  | cons p ps ih =>
    simp only [mergeParts] at h
    cases hp : loadPart retrieve p with
    | error e =>
      rw [hp] at h
      simp only [Option.some.injEq] at h
      exact ⟨p, List.mem_cons_self _ _, h ▸ hp⟩
    | ok rows =>
      rw [hp] at h
      obtain ⟨q, hq, he⟩ := ih _ h
      exact ⟨q, List.mem_cons_of_mem _ hq, he⟩

/-- The loop makes only `retrieve` and `write` calls. -/
theorem mergeParts_event_kinds (retrieve : Source) (parts : List String) (st : MergeState)
    (hst : ∀ e ∈ st.events, (∃ p, e = Event.retrieve p) ∨ (∃ r, e = Event.write r)) :
    ∀ e ∈ (mergeParts retrieve parts st).1.events,
      (∃ p, e = Event.retrieve p) ∨ (∃ r, e = Event.write r) := by
  induction parts generalizing st with
  | nil => simpa [mergeParts] using hst
  | cons p ps ih =>
    simp only [mergeParts]
    cases hp : loadPart retrieve p with
    | error e =>
      intro x hx
      simp only [List.mem_append, List.mem_singleton] at hx
      rcases hx with hx | rfl
      · exact hst x hx
      · exact Or.inl ⟨p, rfl⟩
    | ok rows =>
      apply ih
      intro x hx
      rw [writeRows_zero] at hx
      simp only [List.mem_append, List.mem_singleton, List.mem_map] at hx
      rcases hx with (hx | rfl) | ⟨r, _, rfl⟩
      · exact hst x hx
      · exact Or.inl ⟨p, rfl⟩
      · exact Or.inr ⟨r, rfl⟩

/-- The terminal signal the goroutine sends for a result of `writeMergedCSVToPipe`. -/
theorem producer_eq (retrieve : Source) (parts : List String) :
    producer retrieve parts =
      (mergeParts retrieve parts ⟨[], false⟩).1.events ++
        [Event.flush, match (writeMergedCSVToPipe retrieve parts).2 with
          | none => Event.close
          | some err => Event.closeWithError err] := by
  simp only [producer, writeMergedCSVToPipe]
  cases (mergeParts retrieve parts ⟨[], false⟩).2 <;> simp

/-- The last call of the goroutine, and the absence of any other terminal signal. -/
theorem producer_last (retrieve : Source) (parts : List String) :
    (producer retrieve parts).getLast? =
        some (match (writeMergedCSVToPipe retrieve parts).2 with
          | none => Event.close
          | some err => Event.closeWithError err) ∧
      (∀ e ∈ (mergeParts retrieve parts ⟨[], false⟩).1.events,
        (∃ p, e = Event.retrieve p) ∨ (∃ r, e = Event.write r)) := by
  refine ⟨?_, mergeParts_event_kinds retrieve parts _ (by simp)⟩
  rw [producer_eq]
  simp [List.getLast?_append]

/-- The stream ends with the error `writeMergedCSVToPipe` returned, if any. -/
theorem pipeStream_err (retrieve : Source) (parts : List String) :
    (pipeStream (producer retrieve parts)).err = (writeMergedCSVToPipe retrieve parts).2 := by
  have hk := (producer_last retrieve parts).2
  have hnone : ((mergeParts retrieve parts ⟨[], false⟩).1.events).findSome?
      (fun e => match e with
        | .closeWithError err => some err
        | _ => none) = none := by
    rw [List.findSome?_eq_none_iff]
    intro e he
    rcases hk e he with ⟨p, rfl⟩ | ⟨r, rfl⟩ <;> rfl
  simp only [pipeStream, producer_eq, List.findSome?_append, hnone]
  cases (writeMergedCSVToPipe retrieve parts).2 <;> simp [List.findSome?]

theorem loadPart_mock (part : String) (h : part ∈ ["part1", "part2", "part3"]) :
    ∃ rows, loadPart retrieveFilePart part = .ok rows := by
  simp only [List.mem_cons, List.mem_singleton, List.not_mem_nil, or_false] at h
  rcases h with rfl | rfl | rfl
  · exact ⟨[["id", "name", "age"], ["1", "John", "30"], ["2", "Jane", "25"]], by decide⟩
  · exact ⟨[["id", "name", "age"], ["3", "Mike", "35"], ["4", "Sara", "28"]], by decide⟩
  · exact ⟨[["id", "name", "age"], ["5", "Paul", "40"], ["6", "Linda", "32"]], by decide⟩

theorem loadPart_not_mock (part : String) (h : part ∉ ["part1", "part2", "part3"]) :
    loadPart retrieveFilePart part =
      .error (.failedToRetrieve part (.filePartNotFound part)) := by
  simp only [List.mem_cons, List.mem_singleton, List.not_mem_nil, or_false, not_or] at h
  obtain ⟨h1, h2, h3⟩ := h
  have b1 : (part == "part1") = false := by simpa using h1
  have b2 : (part == "part2") = false := by simpa using h2
  have b3 : (part == "part3") = false := by simpa using h3
  have hl : mockData.lookup part = none := by
    simp only [mockData, List.lookup, b1, b2, b3]
  simp [loadPart, retrieveFilePart, hl]

/-- A run against any reader is a beginning of the full call sequence. -/
theorem runPipe_initial (limit : Option Nat) (events : List Event) (total sent : Nat) :
    ∃ t, runPipe limit events total sent ++ t = events := by
  induction events generalizing total sent with
  | nil => exact ⟨[], rfl⟩
  | cons e rest ih =>
    simp only [runPipe]
    split
    · exact ⟨rest, rfl⟩
    · obtain ⟨t, ht⟩ := ih (total + e.bytes) (sentAfter e total sent)
      exact ⟨t, by rw [List.cons_append, ht]⟩

theorem sentAfter_le (e : Event) (total sent : Nat) (h : sent ≤ total) :
    sentAfter e total sent ≤ total + e.bytes := by
  cases e with
  | write row =>
    simp only [sentAfter]
    have h1 : bufSize * ((total + Event.bytes (Event.write row) - 1) / bufSize) ≤
        total + Event.bytes (Event.write row) - 1 := Nat.mul_div_le _ _
    omega
  | flush => simp only [sentAfter]; omega
  | retrieve p => simp only [sentAfter]; omega
  | close => simp only [sentAfter]; omega
  | closeWithError err => simp only [sentAfter]; omega

/-- When the reader takes every byte, no call blocks. -/
theorem runPipe_all_read (limit : Option Nat) (events : List Event) (total sent : Nat)
    (hsent : sent ≤ total)
    (hread : ∀ n, limit = some n → total + streamSize events ≤ n) :
    runPipe limit events total sent = events := by
  induction events generalizing total sent with
  | nil => rfl
  | cons e rest ih =>
    have hle := sentAfter_le e total sent hsent
    have hsize : streamSize (e :: rest) = e.bytes + streamSize rest := by
      simp [streamSize]
    have hnb : blocks limit sent (sentAfter e total sent) = false := by
      cases limit with
      | none => rfl
      | some n =>
        have hn := hread n rfl
        rw [hsize] at hn
        have hlt : ¬ n < sentAfter e total sent := by omega
        simp [blocks, hlt]
    simp only [runPipe, hnb]
    rw [ih (total + e.bytes) (sentAfter e total sent) hle]
    · simp
    · intro n hn
      have := hread n hn
      rw [hsize] at this
      omega

/-! ## C1 -/

/-- C1, as stated, fails: the one-element list `["A"]` over `sourceEmptyThenAnn` is a
non-empty list of valid partitions (`A` is retrieved and parses, to zero rows), and the
run writes no row at all, not `1 + 0` rows. -/
theorem C1_counterexample :
    AllValid sourceEmptyThenAnn ["A"] [[]] ∧
      output sourceEmptyThenAnn ["A"] = [] ∧
      (output sourceEmptyThenAnn ["A"]).length ≠ 1 + (([[]] : List (List Row)).map dataRowCount).sum :=
  ⟨List.Forall₂.cons (by decide) List.Forall₂.nil, by decide, by decide⟩

/-- C1, amended: for every non-empty list of valid partitions whose first partition has
at least one row, the rows written are the header row (row 0) of the first partition
followed by the data rows (index 1 and above) of every partition, in list order and in
their original order, and their number is 1 plus the sum of the data-row counts; the
run returns no error. -/
theorem C1_header_then_data_rows (retrieve : Source) (part : String) (parts : List String)
    (header : Row) (rest : List Row) (rowss : List (List Row))
    (hv : AllValid retrieve (part :: parts) ((header :: rest) :: rowss)) :
    output retrieve (part :: parts) =
        header :: ((header :: rest) :: rowss).flatMap (fun rows => rows.drop 1) ∧
      (output retrieve (part :: parts)).length =
        1 + (((header :: rest) :: rowss).map dataRowCount).sum ∧
      (writeMergedCSVToPipe retrieve (part :: parts)).2 = none := by
  have e1 := (writeMerged_valid retrieve _ _ hv).1
  have e := output_cons_valid retrieve part parts header rest rowss hv
  refine ⟨e, ?_, e1⟩
  rw [e, List.length_cons, length_flatMap_drop]; omega

/-- C1, witness: the two partitions of the spec's scenario. -/
theorem C1_header_then_data_rows_witness :
    output sourceAnnBo ["P1", "P2"] =
        ["id", "name"] ::
          ([[["id", "name"], ["1", "Ann"]], [["id", "name"], ["2", "Bo"]]] :
            List (List Row)).flatMap (fun rows => rows.drop 1) ∧
      (output sourceAnnBo ["P1", "P2"]).length =
        1 + (([[["id", "name"], ["1", "Ann"]], [["id", "name"], ["2", "Bo"]]] :
            List (List Row)).map dataRowCount).sum ∧
      (writeMergedCSVToPipe sourceAnnBo ["P1", "P2"]).2 = none :=
  C1_header_then_data_rows sourceAnnBo "P1" ["P2"] ["id", "name"] [["1", "Ann"]]
    [[["id", "name"], ["2", "Bo"]]]
    valid_annBo

/-! ## C2 -/

/-- C2, as stated, fails: over `sourceEmptyThenAnn` both partitions of `["A", "B"]` are
valid, the first partition `A` has no row 0, and the first row written is row 0 of the
second partition `B`. -/
theorem C2_counterexample :
    loadPart sourceEmptyThenAnn "A" = .ok [] ∧
      loadPart sourceEmptyThenAnn "B" = .ok [["id", "name"], ["1", "Ann"]] ∧
      (output sourceEmptyThenAnn ["A", "B"]).head? = some ["id", "name"] ∧
      (output sourceEmptyThenAnn ["A", "B"]).head? ≠ ([] : List Row).head? :=
  ⟨by decide, by decide, by decide, by decide⟩

/-- C2, amended: for every list of valid partitions whose first partition has at least
one row, the first row written is row 0 of the first partition, whatever the row 0 of
the other partitions is (two sources that agree on the first partition and on the data
rows of the others give the same output), and it is the only row 0 written: all the
rows after it are rows of index 1 and above. -/
theorem C2_first_row_is_first_header (retrieve₁ retrieve₂ : Source) (part : String)
    (parts : List String) (header : Row) (rest : List Row) (rowss₁ rowss₂ : List (List Row))
    (hv₁ : AllValid retrieve₁ (part :: parts) ((header :: rest) :: rowss₁))
    (hv₂ : AllValid retrieve₂ (part :: parts) ((header :: rest) :: rowss₂))
    (hdata : rowss₁.map (fun rows => rows.drop 1) = rowss₂.map (fun rows => rows.drop 1)) :
    (output retrieve₁ (part :: parts)).head? = some header ∧
      (output retrieve₁ (part :: parts)).drop 1 =
        ((header :: rest) :: rowss₁).flatMap (fun rows => rows.drop 1) ∧
      output retrieve₁ (part :: parts) = output retrieve₂ (part :: parts) := by
  have e₁ := output_cons_valid retrieve₁ part parts header rest rowss₁ hv₁
  have e₂ := output_cons_valid retrieve₂ part parts header rest rowss₂ hv₂
  refine ⟨by rw [e₁]; rfl, by rw [e₁]; rfl, ?_⟩
  rw [e₁, e₂]
  simp only [List.flatMap_def, List.map_cons, hdata]

/-- C2, witness: the second partition has header `key,label` in one source and
`id,name` in the other. -/
theorem C2_first_row_is_first_header_witness :
    (output sourceAnnBo ["P1", "P2"]).head? = some ["id", "name"] ∧
      (output sourceAnnBo ["P1", "P2"]).drop 1 =
        ([[["id", "name"], ["1", "Ann"]], [["id", "name"], ["2", "Bo"]]] :
            List (List Row)).flatMap (fun rows => rows.drop 1) ∧
      output sourceAnnBo ["P1", "P2"] = output sourceOtherHeader ["P1", "P2"] :=
  C2_first_row_is_first_header sourceAnnBo sourceOtherHeader "P1" ["P2"] ["id", "name"]
    [["1", "Ann"]] [[["id", "name"], ["2", "Bo"]]] [[["key", "label"], ["2", "Bo"]]]
    valid_annBo valid_otherHeader (by decide)

/-! ## C3 -/

/-- C3, as stated, fails: with `P1 = "id,name\n1,Ann"` and `P2 = "id,name\n2,Bo"` the
bytes written are not `id,name\n1,Ann\n2,Bo`. -/
theorem C3_counterexample :
    sourceAnnBo "P1" = .ok "id,name\n1,Ann" ∧ sourceAnnBo "P2" = .ok "id,name\n2,Bo" ∧
      streamBytes (writeMergedCSVToPipe sourceAnnBo ["P1", "P2"]).1 ≠ "id,name\n1,Ann\n2,Bo" :=
  ⟨by decide, by decide, by decide⟩

/-- C3, amended: when the source yields `id,name\n1,Ann` for the first part and
`id,name\n2,Bo` for the second, the bytes written are exactly
`id,name\n1,Ann\n2,Bo\n`: the header once, each data row in order, and a newline after
every record, the last one included; the run returns no error. -/
theorem C3_scenario_bytes (retrieve : Source) (a b : String)
    (ha : retrieve a = .ok "id,name\n1,Ann") (hb : retrieve b = .ok "id,name\n2,Bo") :
    streamBytes (writeMergedCSVToPipe retrieve [a, b]).1 = "id,name\n1,Ann\n2,Bo\n" ∧
      (writeMergedCSVToPipe retrieve [a, b]).2 = none := by
  have hv : AllValid retrieve [a, b]
      [[["id", "name"], ["1", "Ann"]], [["id", "name"], ["2", "Bo"]]] :=
    List.Forall₂.cons (loadPart_of_retrieve retrieve a _ _ ha readAll_ann)
      (List.Forall₂.cons (loadPart_of_retrieve retrieve b _ _ hb readAll_bo) List.Forall₂.nil)
  obtain ⟨e1, e2, _⟩ := writeMerged_valid retrieve _ _ hv
  refine ⟨?_, e1⟩
  have e3 : rowsWritten (writeMergedCSVToPipe retrieve [a, b]).1 =
      mergedRows false [[["id", "name"], ["1", "Ann"]], [["id", "name"], ["2", "Bo"]]] := e2
  rw [streamBytes, e3]
  decide

/-- C3, witness: the source `sourceAnnBo` and the list `["P1", "P2"]`. -/
theorem C3_scenario_bytes_witness :
    streamBytes (writeMergedCSVToPipe sourceAnnBo ["P1", "P2"]).1 = "id,name\n1,Ann\n2,Bo\n" ∧
      (writeMergedCSVToPipe sourceAnnBo ["P1", "P2"]).2 = none :=
  C3_scenario_bytes sourceAnnBo "P1" "P2" (by decide) (by decide)

/-! ## C4 -/

/-- C4: (1) for every partition list in which at least one partition fails retrieval or
parsing, `writeMergedCSVToPipe` returns an error, and the goroutine then ends with
`CloseWithError` of that error and never calls `Close`; (2) the error returned is the
one of the first failing partition in list order, a retrieval or a parse error that
names that partition; (3) with `retrieveFilePart`, for a list whose first identifier
other than `part1`, `part2`, `part3` is `part`, the result is the not-found error of
`part`, and the stream is signalled with `CloseWithError` of it. -/
theorem C4_first_failure_reported :
    (∀ (retrieve : Source) (parts : List String),
      (∃ q ∈ parts, ∃ e, loadPart retrieve q = .error e) →
        (writeMergedCSVToPipe retrieve parts).2 ≠ none ∧
          (producer retrieve parts).getLast? =
            (writeMergedCSVToPipe retrieve parts).2.map Event.closeWithError ∧
          Event.close ∉ producer retrieve parts) ∧
    (∀ (retrieve : Source) (pre : List String) (part : String) (post : List String)
      (err : GoError),
      (∀ q ∈ pre, ∃ rows, loadPart retrieve q = .ok rows) →
        loadPart retrieve part = .error err →
          (writeMergedCSVToPipe retrieve (pre ++ part :: post)).2 = some err ∧
            ((∃ cause, retrieve part = .error cause ∧ err = .failedToRetrieve part cause) ∨
              (∃ data cause, retrieve part = .ok data ∧ csvReadAll data = .error cause ∧
                err = .failedToParse part (.csv cause)))) ∧
    (∀ (pre : List String) (part : String) (post : List String),
      (∀ q ∈ pre, q ∈ ["part1", "part2", "part3"]) → part ∉ ["part1", "part2", "part3"] →
        (writeMergedCSVToPipe retrieveFilePart (pre ++ part :: post)).2 =
            some (.failedToRetrieve part (.filePartNotFound part)) ∧
          (producer retrieveFilePart (pre ++ part :: post)).getLast? =
            some (.closeWithError (.failedToRetrieve part (.filePartNotFound part)))) := by
  have key : ∀ (retrieve : Source) (pre : List String) (part : String) (post : List String)
      (err : GoError), (∀ q ∈ pre, ∃ rows, loadPart retrieve q = .ok rows) →
      loadPart retrieve part = .error err →
      (writeMergedCSVToPipe retrieve (pre ++ part :: post)).2 = some err :=
    fun retrieve pre part post err hpre h =>
      mergeParts_first_error retrieve pre part post err hpre h _
  refine ⟨?_, ?_, ?_⟩
  · intro retrieve parts hfail
    obtain ⟨pre, part, post, err, rfl, hpre, h⟩ := exists_first_failing retrieve parts hfail
    have hr := key retrieve pre part post err hpre h
    have hl := (producer_last retrieve (pre ++ part :: post)).1
    have hk := (producer_last retrieve (pre ++ part :: post)).2
    rw [hr] at hl
    refine ⟨by rw [hr]; simp, by rw [hl, hr]; rfl, ?_⟩
    rw [producer_eq, hr]
    intro hmem
    simp only [List.mem_append, List.mem_cons, List.mem_singleton, List.not_mem_nil,
      or_false] at hmem
    rcases hmem with hmem | hmem | hmem
    · rcases hk _ hmem with ⟨p, hp⟩ | ⟨r, hr2⟩
      · cases hp
      · cases hr2
    · cases hmem
    · cases hmem
  · intro retrieve pre part post err hpre h
    exact ⟨key retrieve pre part post err hpre h, loadPart_error retrieve part err h⟩
  · intro pre part post hpre hpart
    have hr := key retrieveFilePart pre part post _
      (fun q hq => loadPart_mock q (hpre q hq)) (loadPart_not_mock part hpart)
    refine ⟨hr, ?_⟩
    rw [(producer_last retrieveFilePart (pre ++ part :: post)).1, hr]

/-- C4, witness: the list `part1, missing, part2` over `retrieveFilePart`. -/
theorem C4_first_failure_reported_witness :
    ((writeMergedCSVToPipe retrieveFilePart ["part1", "missing", "part2"]).2 ≠ none ∧
        (producer retrieveFilePart ["part1", "missing", "part2"]).getLast? =
          (writeMergedCSVToPipe retrieveFilePart ["part1", "missing", "part2"]).2.map
            Event.closeWithError ∧
        Event.close ∉ producer retrieveFilePart ["part1", "missing", "part2"]) ∧
      (writeMergedCSVToPipe retrieveFilePart (["part1"] ++ "missing" :: ["part2"])).2 =
          some (.failedToRetrieve "missing" (.filePartNotFound "missing")) ∧
      (producer retrieveFilePart (["part1"] ++ "missing" :: ["part2"])).getLast? =
          some (.closeWithError (.failedToRetrieve "missing" (.filePartNotFound "missing"))) :=
  ⟨C4_first_failure_reported.1 retrieveFilePart ["part1", "missing", "part2"]
      ⟨"missing", by simp, .failedToRetrieve "missing" (.filePartNotFound "missing"), by decide⟩,
    (C4_first_failure_reported.2.1 retrieveFilePart ["part1"] "missing" ["part2"] _
      (fun q hq => loadPart_mock q (by simp at hq; simp [hq])) (by decide)).1,
    (C4_first_failure_reported.2.2 ["part1"] "missing" ["part2"]
      (fun q hq => by simp at hq; simp [hq]) (by decide)).2⟩

/-! ## C5 -/

/-- C5: when retrieval or parsing fails for the partition at position `k` (the part that
follows `pre`, of length `k`), the run returns an error, the rows written are exactly
the rows that merging the first `k` partitions alone writes (so no row of partition `k`
is written), the whole run is the run on the list cut after position `k` (the later
partitions play no role), and the parts retrieved are the beginning of the list up to
position `k` at most. -/
theorem C5_abort_at_failure (retrieve : Source) (pre : List String) (part : String)
    (post : List String) (err : GoError) (h : loadPart retrieve part = .error err) :
    output retrieve (pre ++ part :: post) = output retrieve pre ∧
      writeMergedCSVToPipe retrieve (pre ++ part :: post) =
        writeMergedCSVToPipe retrieve (pre ++ [part]) ∧
      (writeMergedCSVToPipe retrieve (pre ++ part :: post)).2 ≠ none ∧
      ∃ t, partsRetrieved (writeMergedCSVToPipe retrieve (pre ++ part :: post)).1 ++ t =
        pre ++ [part] := by
  obtain ⟨e1, e2, e3, t, e4⟩ := mergeParts_fail retrieve pre part post err h ⟨[], false⟩
  refine ⟨?_, ?_, e3, t, ?_⟩
  · simp only [output, writeMergedCSVToPipe, rowsWritten_append, e2]
  · simp only [writeMergedCSVToPipe, e1]
  · simp only [writeMergedCSVToPipe, partsRetrieved_append]
    have hf : partsRetrieved [Event.flush] = [] := rfl
    rw [hf, List.append_nil, e4]
    rfl

/-- C5, witness: `missing` fails at position 1 of `part1, missing, part2`. -/
theorem C5_abort_at_failure_witness :
    output retrieveFilePart (["part1"] ++ "missing" :: ["part2"]) =
        output retrieveFilePart ["part1"] ∧
      writeMergedCSVToPipe retrieveFilePart (["part1"] ++ "missing" :: ["part2"]) =
        writeMergedCSVToPipe retrieveFilePart (["part1"] ++ ["missing"]) ∧
      (writeMergedCSVToPipe retrieveFilePart (["part1"] ++ "missing" :: ["part2"])).2 ≠ none ∧
      ∃ t, partsRetrieved
          (writeMergedCSVToPipe retrieveFilePart (["part1"] ++ "missing" :: ["part2"])).1 ++ t =
        ["part1"] ++ ["missing"] :=
  C5_abort_at_failure retrieveFilePart ["part1"] "missing" ["part2"]
    (.failedToRetrieve "missing" (.filePartNotFound "missing")) (by decide)

/-! ## C6 -/

/-- C6, as stated, fails: on `["missing"]` the Merge Writer fails with the error `e` =
"failed to retrieve file part missing: file part missing not found"; even with an
`Upload` that fails with `e` itself, `streamMergeAndUpload` reports another error, the
upload error "failed to upload to S3: ...". -/
theorem C6_counterexample :
    (writeMergedCSVToPipe retrieveFilePart ["missing"]).2 =
        some (.failedToRetrieve "missing" (.filePartNotFound "missing")) ∧
      (streamMergeAndUpload envUploadSurfacesAbort retrieveFilePart ["missing"]).2 =
        some (.failedToUpload (.failedToRetrieve "missing" (.filePartNotFound "missing"))) ∧
      (streamMergeAndUpload envUploadSurfacesAbort retrieveFilePart ["missing"]).2 ≠
        (writeMergedCSVToPipe retrieveFilePart ["missing"]).2 :=
  ⟨by decide, by decide, by decide⟩

/-- C6, amended: whenever the Merge Writer fails with `e` (the session having been
created) and `Upload` fails on a stream that ends with an error, the producer ends the
stream with `CloseWithError(e)`, the error `streamMergeAndUpload` reports is the
consumer-side error that follows from it, "failed to upload to S3: u" with `u` the error
of `Upload`, not `e` itself, and `streamMergeAndUpload` does not return success. -/
theorem C6_reported_error (env : Env) (retrieve : Source) (parts : List String) (e : GoError)
    (hs : env.newSession = .ok ()) (he : (writeMergedCSVToPipe retrieve parts).2 = some e)
    (hup : ∀ stream : PipeStream, stream.err ≠ none → ∃ u, env.upload stream = .error u) :
    (pipeStream (producer retrieve parts)).err = some e ∧
      (∃ u, env.upload (pipeStream (producer retrieve parts)) = .error u ∧
        (streamMergeAndUpload env retrieve parts).2 = some (.failedToUpload u)) ∧
      (streamMergeAndUpload env retrieve parts).2 ≠ some e ∧
      (streamMergeAndUpload env retrieve parts).2 ≠ none := by
  have hshape : ∀ u, GoError.failedToUpload u ≠ e := by
    intro u hu
    obtain ⟨part, _, hl⟩ := mergeParts_error_origin retrieve parts _ e he
    rcases loadPart_error retrieve part e hl with ⟨c, _, hc⟩ | ⟨d, c, _, _, hc⟩
    · rw [hc] at hu; cases hu
    · rw [hc] at hu; cases hu
  have herr : (pipeStream (producer retrieve parts)).err = some e := by
    rw [pipeStream_err, he]
  obtain ⟨u, hu⟩ := hup (pipeStream (producer retrieve parts)) (by rw [herr]; simp)
  have hres : (streamMergeAndUpload env retrieve parts).2 = some (.failedToUpload u) := by
    simp [streamMergeAndUpload, hs, hu]
  refine ⟨herr, ⟨u, hu, hres⟩, ?_, ?_⟩
  · rw [hres]
    intro h
    exact hshape u (Option.some.inj h)
  · rw [hres]; simp

/-- C6, witness: `["missing"]` over `retrieveFilePart`, with an `Upload` that surfaces
the abort. -/
theorem C6_reported_error_witness :
    (pipeStream (producer retrieveFilePart ["missing"])).err =
        some (.failedToRetrieve "missing" (.filePartNotFound "missing")) ∧
      (∃ u, envUploadSurfacesAbort.upload (pipeStream (producer retrieveFilePart ["missing"])) =
          .error u ∧
        (streamMergeAndUpload envUploadSurfacesAbort retrieveFilePart ["missing"]).2 =
          some (.failedToUpload u)) ∧
      (streamMergeAndUpload envUploadSurfacesAbort retrieveFilePart ["missing"]).2 ≠
        some (.failedToRetrieve "missing" (.filePartNotFound "missing")) ∧
      (streamMergeAndUpload envUploadSurfacesAbort retrieveFilePart ["missing"]).2 ≠ none :=
  C6_reported_error envUploadSurfacesAbort retrieveFilePart ["missing"]
    (.failedToRetrieve "missing" (.filePartNotFound "missing")) rfl (by decide)
    (fun stream h => by
      cases hse : stream.err with
      | none => exact absurd hse h
      | some err => exact ⟨err, by simp [envUploadSurfacesAbort, hse]⟩)

/-! ## C7 -/

/-- C7, as stated, fails in its general part: over `sourceEmptyThenAnn`, `xs = ["A"]` is
a non-empty list of valid partitions and `ys = ["B"]` a list of valid partitions, and
the output on `xs ++ ys` is not the output on `xs` followed by the data rows of `B`: it
also holds row 0 of `B`. -/
theorem C7_counterexample :
    AllValid sourceEmptyThenAnn ["A"] [[]] ∧
      AllValid sourceEmptyThenAnn ["B"] [[["id", "name"], ["1", "Ann"]]] ∧
      output sourceEmptyThenAnn (["A"] ++ ["B"]) = [["id", "name"], ["1", "Ann"]] ∧
      output sourceEmptyThenAnn (["A"] ++ ["B"]) ≠
        output sourceEmptyThenAnn ["A"] ++
          ([[["id", "name"], ["1", "Ann"]]] : List (List Row)).flatMap (fun rows => rows.drop 1) :=
  ⟨List.Forall₂.cons (by decide) List.Forall₂.nil,
    List.Forall₂.cons (by decide) List.Forall₂.nil, by decide, by decide⟩

/-- C7, amended: for all lists `xs` and `ys` of valid partitions, the output on `xs` is
the beginning of the output on `xs ++ ys` (the first rows of the second output, as many
as the first output has, are the first output); and when some partition of `xs` has at
least one row, the output on `xs ++ ys` is the output on `xs` followed by the data rows
of the partitions of `ys` in order. -/
theorem C7_merge_extends (retrieve : Source) (xs ys : List String) (rx ry : List (List Row))
    (hx : AllValid retrieve xs rx) (hy : AllValid retrieve ys ry) :
    (output retrieve (xs ++ ys)).take (output retrieve xs).length = output retrieve xs ∧
      ((∃ rows ∈ rx, rows ≠ []) →
        output retrieve (xs ++ ys) =
          output retrieve xs ++ ry.flatMap (fun rows => rows.drop 1)) := by
  have e1 := (writeMerged_valid retrieve _ _ hx).2.1
  have e2 := (writeMerged_valid retrieve _ _ (hx.append hy)).2.1
  rw [e1, e2, mergedRows_append]
  refine ⟨List.take_left _ _, ?_⟩
  rintro ⟨rows, hmem, hne⟩
  have hany : rx.any (fun rows => !rows.isEmpty) = true := by
    rw [List.any_eq_true]
    exact ⟨rows, hmem, by cases rows <;> simp_all⟩
  rw [hany, Bool.or_true, mergedRows_true]

/-- C7, witness: `xs = ["P1"]` and `ys = ["P2"]` over `sourceAnnBo`. -/
theorem C7_merge_extends_witness :
    (output sourceAnnBo (["P1"] ++ ["P2"])).take (output sourceAnnBo ["P1"]).length =
        output sourceAnnBo ["P1"] ∧
      output sourceAnnBo (["P1"] ++ ["P2"]) =
        output sourceAnnBo ["P1"] ++
          ([[["id", "name"], ["2", "Bo"]]] : List (List Row)).flatMap (fun rows => rows.drop 1) :=
  have h := C7_merge_extends sourceAnnBo ["P1"] ["P2"] [[["id", "name"], ["1", "Ann"]]]
    [[["id", "name"], ["2", "Bo"]]]
    (List.Forall₂.cons (by decide) List.Forall₂.nil)
    (List.Forall₂.cons (by decide) List.Forall₂.nil)
  ⟨h.1, h.2 ⟨[["id", "name"], ["1", "Ann"]], by simp, by simp⟩⟩

/-! ## C8 -/

/-- C8, as stated, fails: over `sourceEmptyThenAnn` the first partition `A` of
`["A", "B"]` parses to zero rows, `B` comes after the first partition, and row 0 of `B`
is written. -/
theorem C8_counterexample :
    loadPart sourceEmptyThenAnn "A" = .ok [] ∧
      loadPart sourceEmptyThenAnn "B" = .ok (["id", "name"] :: [["1", "Ann"]]) ∧
      output sourceEmptyThenAnn ["A", "B"] = [["id", "name"], ["1", "Ann"]] ∧
      ["id", "name"] ∈ output sourceEmptyThenAnn ["A", "B"] :=
  ⟨by decide, by decide, by decide, by decide⟩

/-- C8, amended: for every list of valid partitions, the partitions before the first one
that has a row write nothing, that partition is written whole (row 0 included), and of
every partition after it row 0 is discarded by position, whatever its value, while every
row at index 1 and above is written, in order. -/
theorem C8_header_skipped_by_position (retrieve : Source) (parts : List String)
    (zs : List (List Row)) (rows : List Row) (rest : List (List Row))
    (hv : AllValid retrieve parts (zs ++ rows :: rest))
    (hz : ∀ z ∈ zs, z = []) (hne : rows ≠ []) :
    output retrieve parts = rows ++ rest.flatMap (fun rows => rows.drop 1) := by
  rw [(writeMerged_valid retrieve _ _ hv).2.1, mergedRows_append,
    (mergedRows_all_empty zs hz).1, (mergedRows_all_empty zs hz).2]
  cases rows with
  | nil => exact absurd rfl hne
  | cons row more => simp [mergedRows, mergedRows_true]

/-- C8, witness: an empty first partition, then two partitions with different headers. -/
theorem C8_header_skipped_by_position_witness :
    output sourceEmptyThenAnn ["A", "B", "C"] =
      [["id", "name"], ["1", "Ann"]] ++
        ([[["key", "label"], ["2", "Bo"]]] : List (List Row)).flatMap (fun rows => rows.drop 1) :=
  C8_header_skipped_by_position sourceEmptyThenAnn ["A", "B", "C"] [[]]
    [["id", "name"], ["1", "Ann"]] [[["key", "label"], ["2", "Bo"]]]
    (List.Forall₂.cons (by decide) (List.Forall₂.cons (by decide)
      (List.Forall₂.cons (by decide) List.Forall₂.nil)))
    (by simp) (by simp)

/-! ## C9 -/

/-- C9, as stated, fails: in the run on `["part1"]` against a reader that has stopped
reading (it takes 0 bytes and never closes its end), the deferred flush writes the 32
buffered bytes to the pipe and never returns, so the run ends with the flush and sends
neither `Close` nor `CloseWithError`. -/
theorem C9_counterexample :
    producerRun (some 0) retrieveFilePart ["part1"] =
        [.retrieve "part1", .write ["id", "name", "age"], .write ["1", "John", "30"],
          .write ["2", "Jane", "25"], .flush] ∧
      streamSize (producer retrieveFilePart ["part1"]) = 32 ∧
      (producerRun (some 0) retrieveFilePart ["part1"]).countP Event.isTerminal = 0 :=
  ⟨by decide, by decide, by decide⟩

/-- C9, amended: in every run of the producer in which the reader takes every byte the
CSV writer is given (so that no write to the pipe blocks for ever), on every partition
list, the calls are: retrievals and row writes only, then the flush of the CSV writer,
then one terminal signal, the last call, which is `Close` when `writeMergedCSVToPipe`
returned success and `CloseWithError(e)` when it returned the error `e`; the run holds
exactly one terminal signal, so no row write follows it.  In every run, whatever the
reader takes, the calls made are a beginning of that sequence. -/
theorem C9_flush_then_one_signal (limit : Option Nat) (retrieve : Source)
    (parts : List String) :
    (∃ t, producerRun limit retrieve parts ++ t = producer retrieve parts) ∧
    ((∀ n, limit = some n → streamSize (producer retrieve parts) ≤ n) →
      ∃ pre, producerRun limit retrieve parts =
          pre ++ [Event.flush, match (writeMergedCSVToPipe retrieve parts).2 with
            | none => Event.close
            | some err => Event.closeWithError err] ∧
        (∀ e ∈ pre, (∃ p, e = Event.retrieve p) ∨ (∃ r, e = Event.write r)) ∧
        (producerRun limit retrieve parts).countP Event.isTerminal = 1) := by
  refine ⟨runPipe_initial limit _ 0 0, fun hread => ?_⟩
  have hrun : producerRun limit retrieve parts = producer retrieve parts :=
    runPipe_all_read limit _ 0 0 (Nat.le_refl 0) (fun n hn => by
      have := hread n hn
      omega)
  have hk := (producer_last retrieve parts).2
  rw [hrun]
  refine ⟨_, producer_eq retrieve parts, hk, ?_⟩
  have h0 : ((mergeParts retrieve parts ⟨[], false⟩).1.events).countP Event.isTerminal = 0 := by
    rw [List.countP_eq_zero]
    intro e he
    rcases hk e he with ⟨p, rfl⟩ | ⟨r, rfl⟩ <;> simp [Event.isTerminal]
  rw [producer_eq, List.countP_append, h0]
  cases (writeMergedCSVToPipe retrieve parts).2 <;> simp [List.countP_cons, Event.isTerminal]

/-- C9, witness: the run on `part1, missing` against a reader that takes 32 bytes, all
that the CSV writer is given. -/
theorem C9_flush_then_one_signal_witness :
    ∃ pre, producerRun (some 32) retrieveFilePart ["part1", "missing"] =
        pre ++ [Event.flush,
          match (writeMergedCSVToPipe retrieveFilePart ["part1", "missing"]).2 with
          | none => Event.close
          | some err => Event.closeWithError err] ∧
      (∀ e ∈ pre, (∃ p, e = Event.retrieve p) ∨ (∃ r, e = Event.write r)) ∧
      (producerRun (some 32) retrieveFilePart ["part1", "missing"]).countP Event.isTerminal = 1 :=
  (C9_flush_then_one_signal (some 32) retrieveFilePart ["part1", "missing"]).2
    (fun n hn => by
      have h32 : streamSize (producer retrieveFilePart ["part1", "missing"]) = 32 := by decide
      rw [h32]
      exact Nat.le_of_eq (Option.some.inj hn))

/-! ## C10 -/

/-- C10, the code at the failing input: when `Upload` is rejected, `streamMergeAndUpload`
has started the producer goroutine and returns "failed to upload to S3: ..." without
having called `wg.Wait`. -/
theorem C10_upload_failure_returns_without_wait :
    streamMergeAndUpload envUploadRejected retrieveFilePart ["part1", "part2", "part3"] =
        ([.newSession, .newUploader, .pipe, .wgAdd, .spawn, .upload],
          some (.failedToUpload (.other "AccessDenied"))) ∧
      Step.spawn ∈
        (streamMergeAndUpload envUploadRejected retrieveFilePart ["part1", "part2", "part3"]).1 ∧
      Step.wgWait ∉
        (streamMergeAndUpload envUploadRejected retrieveFilePart ["part1", "part2", "part3"]).1 :=
  ⟨by decide, by decide, by decide⟩

end StreamFiles
